import Mathlib

/-!
Shallow embedding of the LS-8 emulator in src/project/ls8/cpu.js (the full
variant of the file, the one defining the complete opcode set).  Registers
and memory hold host-language (JavaScript) values: finite numbers are
modelled as exact rationals, and the special values Infinity, -Infinity,
NaN and undefined are represented explicitly.  The source relies only on
integer arithmetic, 32-bit coercions and these special values, so the
rational model is exact everywhere a theorem below looks; negative zero is
identified with zero and no theorem depends on float rounding of an inexact
quotient.
-/

namespace LS8

/-- A JavaScript value as stored in the register file or the RAM. -/
inductive JSVal where
  | num (q : ℚ)
  | inf
  | negInf
  | nan
  | undefined
deriving DecidableEq

/-- Truncation toward zero of a rational, as used by the ToInt32 coercion.
Both divisions act on a nonnegative numerator and positive denominator, so
every integer-division convention agrees. -/
def qTrunc (q : ℚ) : ℤ :=
  if 0 ≤ q.num then q.num / (q.den : ℤ) else -((-q.num) / (q.den : ℤ))

/-- The ToUint32 coercion of JavaScript: NaN, undefined and infinities go
to 0, finite values are truncated and wrapped modulo 2^32. -/
def toUint32 : JSVal → ℕ
  | .num q => ((qTrunc q) % 4294967296).toNat
  | _ => 0

/-- Reinterpret an unsigned 32-bit value as a signed one. -/
def u32ToInt32 (n : ℕ) : ℤ :=
  if n < 2147483648 then (n : ℤ) else (n : ℤ) - 4294967296

/-- The ToInt32 coercion of JavaScript. -/
def toInt32 (v : JSVal) : ℤ := u32ToInt32 (toUint32 v)

/-- JavaScript addition on numeric values (undefined coerces to NaN). -/
def jsAdd : JSVal → JSVal → JSVal
  | .num a, .num b => .num (a + b)
  | .num _, .inf | .inf, .num _ | .inf, .inf => .inf
  | .num _, .negInf | .negInf, .num _ | .negInf, .negInf => .negInf
  | _, _ => .nan

/-- JavaScript subtraction. -/
def jsSub : JSVal → JSVal → JSVal
  | .num a, .num b => .num (a - b)
  | .num _, .negInf | .inf, .num _ | .inf, .negInf => .inf
  | .num _, .inf | .negInf, .num _ | .negInf, .inf => .negInf
  | _, _ => .nan

/-- JavaScript multiplication. -/
def jsMul : JSVal → JSVal → JSVal
  | .num a, .num b => .num (a * b)
  | .inf, .num b | .num b, .inf =>
      if b = 0 then .nan else if 0 < b then .inf else .negInf
  | .negInf, .num b | .num b, .negInf =>
      if b = 0 then .nan else if 0 < b then .negInf else .inf
  | .inf, .inf | .negInf, .negInf => .inf
  | .inf, .negInf | .negInf, .inf => .negInf
  | _, _ => .nan

/-- JavaScript division: a nonzero finite value divided by zero gives a
signed infinity, zero by zero gives NaN. -/
def jsDiv : JSVal → JSVal → JSVal
  | .num a, .num b =>
      if b = 0 then (if a = 0 then .nan else if 0 < a then .inf else .negInf)
      else .num (a / b)
  | .inf, .num b => if 0 ≤ b then .inf else .negInf
  | .negInf, .num b => if 0 ≤ b then .negInf else .inf
  | .num _, .inf | .num _, .negInf => .num 0
  | _, _ => .nan

/-- JavaScript remainder: sign follows the dividend, zero divisor gives
NaN, finite dividend with infinite divisor gives the dividend. -/
def jsMod : JSVal → JSVal → JSVal
  | .num a, .num b =>
      if b = 0 then .nan else .num (a - b * ((qTrunc (a / b) : ℤ) : ℚ))
  | .num a, .inf | .num a, .negInf => .num a
  | _, _ => .nan

/-- JavaScript strict equality on the values the emulator can hold:
NaN compares unequal to everything, undefined only to undefined. -/
def jsEq : JSVal → JSVal → Bool
  | .num a, .num b => decide (a = b)
  | .inf, .inf => true
  | .negInf, .negInf => true
  | .undefined, .undefined => true
  | _, _ => false

/-- JavaScript greater-than: false whenever NaN or undefined is involved. -/
def jsGt : JSVal → JSVal → Bool
  | .num a, .num b => decide (b < a)
  | .inf, .num _ => true
  | .inf, .negInf => true
  | .num _, .negInf => true
  | _, _ => false

/-- JavaScript less-than: false whenever NaN or undefined is involved. -/
def jsLt : JSVal → JSVal → Bool
  | .num a, .num b => decide (a < b)
  | .negInf, .num _ => true
  | .negInf, .inf => true
  | .num _, .inf => true
  | _, _ => false

/-- JavaScript bitwise and. -/
def jsAnd (a b : JSVal) : JSVal :=
  .num ((u32ToInt32 (Nat.land (toUint32 a) (toUint32 b)) : ℤ) : ℚ)

/-- JavaScript bitwise or. -/
def jsOr (a b : JSVal) : JSVal :=
  .num ((u32ToInt32 (Nat.lor (toUint32 a) (toUint32 b)) : ℤ) : ℚ)

/-- JavaScript bitwise xor. -/
def jsXor (a b : JSVal) : JSVal :=
  .num ((u32ToInt32 (Nat.xor (toUint32 a) (toUint32 b)) : ℤ) : ℚ)

/-- JavaScript bitwise complement. -/
def jsNot (a : JSVal) : JSVal :=
  .num ((u32ToInt32 (4294967295 - toUint32 a) : ℤ) : ℚ)

/-- JavaScript sign-propagating right shift.  The subtraction removes the
low bits, so the division is exact and convention-independent, matching an
arithmetic shift of the signed 32-bit operand. -/
def jsShr (a b : JSVal) : JSVal :=
  .num ((((toInt32 a) - (toInt32 a) % (2 ^ (toUint32 b % 32) : ℤ)) /
    (2 ^ (toUint32 b % 32) : ℤ) : ℤ) : ℚ)

/-- Diagnostic events emitted through console.error.  unknownOpcode carries
the IR byte of the message "Unknown opcode " + IR; dividerZero and modZero
carry the faulting divisor passed as second console.error argument of the
messages "Divider cannot be zero" and "Divder cannot be zeor". -/
inductive Diag where
  | unknownOpcode (ir : JSVal)
  | dividerZero (d : JSVal)
  | modZero (d : JSVal)
deriving DecidableEq

/-- The machine state.  In the source this.reg is a single array object on
which the numeric slots 0..7 and the named properties PC, IR and FL live
side by side; numeric keys never collide with the names, so the named
properties are separate fields here.  reg maps a numeric key to its value,
with undefined standing for an absent slot, exactly as a read of an absent
property yields undefined.  running models the interval clock being active:
stopClock clears it.  output collects the console.log lines of PRN and
errlog the console.error diagnostics. -/
structure CPUState where
  ram : JSVal → JSVal
  reg : JSVal → JSVal
  PC : JSVal
  IR : JSVal
  FL : JSVal
  running : Bool
  output : List JSVal
  errlog : List Diag

/-- Modelled from the spec: cpu.js reads the identifier SP without ever
declaring it, so the stack-pointer register index is missing from the
source.  Per the spec, one of the eight general-purpose register slots is
reserved by convention as the Stack Pointer and initialised to 0xF4; the
LS-8 convention reserves register 7 for it. -/
def SP : ℚ := 7

/-- Pointwise update of a JavaScript object modelled as a total map. -/
def updMap (f : JSVal → JSVal) (k v : JSVal) : JSVal → JSVal :=
  fun x => if x = k then v else f x

/-- stopClock clears the interval driving tick. -/
def stopClock (s : CPUState) : CPUState := { s with running := false }

/-- The alu method: a switch on the operation name.  The DIV and MOD cases
report and stop the clock on a zero divisor but fall through to the
assignment; CMP runs three sequential if statements each ORing a flag bit
into FL (the source re-reads the registers in every condition, but no
condition or branch writes a register, so reading them once is the same);
the default case of the switch changes nothing. -/
def alu (op : String) (regA regB : JSVal) (s : CPUState) : CPUState :=
  match op with
  | "ADD" => { s with reg := updMap s.reg regA (jsAdd (s.reg regA) (s.reg regB)) }
  | "MUL" => { s with reg := updMap s.reg regA (jsMul (s.reg regA) (s.reg regB)) }
  | "AND" => { s with reg := updMap s.reg regA (jsAnd (s.reg regA) (s.reg regB)) }
  | "INC" => { s with reg := updMap s.reg regA (jsAnd (jsAdd (s.reg regA) (.num 1)) (.num 255)) }
  | "DEC" => { s with reg := updMap s.reg regA (jsSub (s.reg regA) (.num 1)) }
  | "DIV" =>
      let s1 := if jsEq (s.reg regB) (.num 0)
        then stopClock { s with errlog := s.errlog ++ [Diag.dividerZero (s.reg regB)] }
        else s
      { s1 with reg := updMap s1.reg regA (jsDiv (s1.reg regA) (s1.reg regB)) }
  | "CMP" =>
      let f1 := if jsEq (s.reg regA) (s.reg regB) then jsOr s.FL (.num 1) else s.FL
      let f2 := if jsGt (s.reg regA) (s.reg regB) then jsOr f1 (.num 2) else f1
      let f3 := if jsLt (s.reg regA) (s.reg regB) then jsOr f2 (.num 4) else f2
      { s with FL := f3 }
  | "MOD" =>
      let s1 := if jsEq (s.reg regB) (.num 0)
        then stopClock { s with errlog := s.errlog ++ [Diag.modZero (s.reg regB)] }
        else s
      { s1 with reg := updMap s1.reg regA (jsMod (s1.reg regA) (s1.reg regB)) }
  | "NOT" => { s with reg := updMap s.reg regA (jsNot (s.reg regA)) }
  | "OR" => { s with reg := updMap s.reg regA (jsOr (s.reg regA) (s.reg regB)) }
  | "SUB" => { s with reg := updMap s.reg regA (jsSub (s.reg regA) (s.reg regB)) }
  | "XOR" => { s with reg := updMap s.reg regA (jsXor (s.reg regA) (s.reg regB)) }
  | _ => s

/-- The _pop helper: read RAM at the SP register, then INC the SP register
through the alu, and hand the read value back. -/
def _pop (s : CPUState) : CPUState × JSVal :=
  (alu ("INC") (.num SP) .undefined s, s.ram (s.reg (.num SP)))

/-- The _push helper: DEC the SP register through the alu, then write the
value to RAM at the new SP. -/
def _push (val : JSVal) (s : CPUState) : CPUState :=
  let s1 := alu ("DEC") (.num SP) .undefined s
  { s1 with ram := updMap s1.ram (s1.reg (.num SP)) val }

/-- The instructions wired into the branch table. -/
inductive Op where
  | HLT | ADD | MUL | LDI | PRN | POP | PUSH | CALL | RET | AND | NOP
  | INC | DEC | DIV | CMP | JEQ | JNE | JMP | MOD | NOT | OR | SUB | XOR
deriving DecidableEq

/-- The opcode constants of the source file. -/
def opByte : Op → ℕ
  | .HLT => 0b00000001
  | .ADD => 0b10101000
  | .MUL => 0b10101010
  | .LDI => 0b10011001
  | .PRN => 0b01000011
  | .POP => 0b01001100
  | .PUSH => 0b01001101
  | .CALL => 0b01001000
  | .RET => 0b00001001
  | .AND => 0b10110011
  | .NOP => 0b00000000
  | .INC => 0b01111000
  | .DEC => 0b01111001
  | .DIV => 0b10101011
  | .CMP => 0b10100000
  | .JEQ => 0b01010001
  | .JNE => 0b01010010
  | .JMP => 0b01010000
  | .MOD => 0b10101100
  | .NOT => 0b01110000
  | .OR => 0b10110001
  | .SUB => 0b10101001
  | .XOR => 0b10110010

/-- All opcodes entered into the branch table by setupBranchTable. -/
def allOps : List Op :=
  [.HLT, .ADD, .MUL, .LDI, .PRN, .POP, .PUSH, .CALL, .RET, .AND, .NOP,
   .INC, .DEC, .DIV, .CMP, .JEQ, .JNE, .JMP, .MOD, .NOT, .OR, .SUB, .XOR]

/-- Branch-table lookup: object property lookup stringifies the key, so a
fetched value finds a handler exactly when it is the number equal to one of
the integer opcode constants. -/
def branchLookup (ir : JSVal) : Option Op :=
  allOps.find? (fun o => decide (ir = JSVal.num ((opByte o : ℕ) : ℚ)))

/-- One instruction handler.  The second component is the raw JavaScript
return value: undefined when the handler has no return statement on the taken
path, the intended next PC otherwise. -/
def runHandler (op : Op) (operandA operandB : JSVal) (s : CPUState) :
    CPUState × JSVal :=
  match op with
  | .HLT => (stopClock s, .undefined)
  | .ADD => (alu ("ADD") operandA operandB s, .undefined)
  | .MUL => (alu ("MUL") operandA operandB s, .undefined)
  | .LDI => ({ s with reg := updMap s.reg operandA operandB }, .undefined)
  | .PRN => ({ s with output := s.output ++ [s.reg operandA] }, .undefined)
  | .POP =>
      let p := _pop s
      ({ p.1 with reg := updMap p.1.reg operandA p.2 }, .undefined)
  | .PUSH => (_push (s.reg operandA) s, .undefined)
  | .CALL => (s, s.reg operandA)
  | .RET => _pop s
  | .AND => (alu ("AND") operandA operandB s, .undefined)
  | .NOP => (s, .undefined)
  | .INC => (alu ("INC") operandA .undefined s, .undefined)
  | .DEC => (alu ("DEC") operandA .undefined s, .undefined)
  | .DIV => (alu ("DIV") operandA operandB s, .undefined)
  | .CMP => (alu ("CMP") operandA operandB s, .undefined)
  | .JEQ => if jsEq s.FL (.num 1) then (s, s.reg operandA) else (s, .undefined)
  | .JNE => if jsEq s.FL (.num 0) then (s, s.reg operandA) else (s, .undefined)
  | .JMP => (s, s.reg operandA)
  | .MOD => (alu ("MOD") operandA operandB s, .undefined)
  | .NOT => (alu ("NOT") operandA .undefined s, .undefined)
  | .OR => (alu ("OR") operandA operandB s, .undefined)
  | .SUB => (alu ("SUB") operandA operandB s, .undefined)
  | .XOR => (alu ("XOR") operandA operandB s, .undefined)

/-- The tail of tick once a handler was found: read the two operand bytes,
run the handler, then either take its returned next PC or apply the default
advance PC + ((IR >> 6) & 0b11) + 1, re-reading reg.PC and reg.IR as the
source does. -/
def tickExec (op : Op) (s : CPUState) : CPUState :=
  let operandA := s.ram (jsAdd s.PC (.num 1))
  let operandB := s.ram (jsAdd s.PC (.num 2))
  let r := runHandler op operandA operandB s
  if r.2 ≠ JSVal.undefined then { r.1 with PC := r.2 }
  else
    { r.1 with
      PC := jsAdd r.1.PC (jsAdd (jsAnd (jsShr r.1.IR (.num 6)) (.num 3)) (.num 1)) }

/-- One clock tick: fetch the IR from RAM at PC, look the handler up, and
on a miss report the unknown opcode and stop the clock without touching
anything else. -/
def tick (s : CPUState) : CPUState :=
  let s1 := { s with IR := s.ram s.PC }
  match branchLookup s1.IR with
  | none => stopClock { s1 with errlog := s1.errlog ++ [Diag.unknownOpcode s1.IR] }
  | some op => tickExec op s1

/-- The run loop: the interval fires tick while the clock is active; the
fuel bounds how many times it can fire. -/
def run : ℕ → CPUState → CPUState
  | 0, s => s
  | n + 1, s => if s.running then run n (tick s) else s

/-- The register object built by the constructor: eight numeric slots
filled with 0, then the SP slot set to 0xF4; every other key is absent.
FL is never assigned by the constructor. -/
def initReg : JSVal → JSVal := fun v =>
  if v = .num SP then .num 244
  else if v = .num 0 ∨ v = .num 1 ∨ v = .num 2 ∨ v = .num 3 ∨ v = .num 4 ∨
          v = .num 5 ∨ v = .num 6 then .num 0
  else .undefined

/-- The constructed CPU over a given RAM.  The run harness starts the
clock right after loading, which the running flag models. -/
def initCPU (ram : JSVal → JSVal) : CPUState :=
  { ram := ram, reg := initReg, PC := .num 0, IR := .num 0, FL := .undefined,
    running := true, output := [], errlog := [] }

end LS8

namespace LS8

/-! Helper lemmas about the embedding. -/

theorem run_halted (n : ℕ) (s : CPUState) (h : s.running = false) :
    run n s = s := by
  cases n <;> simp [run, h]

theorem branchLookup_some {ir : JSVal} {op : Op}
    (h : branchLookup ir = some op) : ir = JSVal.num ((opByte op : ℕ) : ℚ) := by
  have := List.find?_some h
  exact of_decide_eq_true this

theorem runHandler_PC (op : Op) (a b : JSVal) (s : CPUState) :
    ((runHandler op a b s).1).PC = s.PC := by
  cases op <;> simp only [runHandler, alu, _pop, _push, stopClock] <;>
    (try split_ifs) <;> rfl

theorem runHandler_IR (op : Op) (a b : JSVal) (s : CPUState) :
    ((runHandler op a b s).1).IR = s.IR := by
  cases op <;> simp only [runHandler, alu, _pop, _push, stopClock] <;>
    (try split_ifs) <;> rfl

theorem runHandler_FL (op : Op) (h : op ≠ Op.CMP) (a b : JSVal) (s : CPUState) :
    ((runHandler op a b s).1).FL = s.FL := by
  cases op <;> first
    | exact absurd rfl h
    | (simp only [runHandler, alu, _pop, _push, stopClock] <;> (try split_ifs) <;> rfl)

theorem qTrunc_natCast (n : ℕ) : qTrunc ((n : ℕ) : ℚ) = (n : ℤ) := by
  simp [qTrunc, Rat.num_natCast, Rat.den_natCast]

theorem toUint32_natCast (n : ℕ) (h : n < 4294967296) :
    toUint32 (.num ((n : ℕ) : ℚ)) = n := by
  simp only [toUint32, qTrunc_natCast]
  omega

theorem u32ToInt32_small (n : ℕ) (h : n < 2147483648) :
    u32ToInt32 n = (n : ℤ) := by
  simp [u32ToInt32, h]

set_option maxRecDepth 4000 in
theorem land255_mod (m : ℕ) (h : m < 512) : Nat.land m 255 = m % 256 := by
  revert h; revert m; decide

theorem jsAnd255 (m : ℕ) (h : m < 4294967296) :
    jsAnd (.num ((m : ℕ) : ℚ)) (.num 255) = .num ((Nat.land m 255 : ℕ) : ℚ) := by
  have h255 : toUint32 (.num 255) = 255 := by decide
  have hle : Nat.land m 255 ≤ 255 := Nat.and_le_right
  rw [jsAnd, toUint32_natCast m h, h255, u32ToInt32_small _ (by omega)]
  simp

theorem tick_some (s : CPUState) (op : Op)
    (h : branchLookup (s.ram s.PC) = some op) :
    tick s = tickExec op { s with IR := s.ram s.PC } := by
  unfold tick
  dsimp only
  rw [h]

theorem alu_div_zero (a b : JSVal) (s : CPUState) (hz : s.reg b = .num 0) :
    alu ("DIV") a b s =
      { s with reg := updMap s.reg a (jsDiv (s.reg a) (.num 0)),
               running := false,
               errlog := s.errlog ++ [Diag.dividerZero (.num 0)] } := by
  simp [alu, stopClock, hz, jsEq]

theorem alu_mod_zero (a b : JSVal) (s : CPUState) (hz : s.reg b = .num 0) :
    alu ("MOD") a b s =
      { s with reg := updMap s.reg a (jsMod (s.reg a) (.num 0)),
               running := false,
               errlog := s.errlog ++ [Diag.modZero (.num 0)] } := by
  simp [alu, stopClock, hz, jsEq]

theorem tickExec_default (op : Op) (s : CPUState)
    (h : (runHandler op (s.ram (jsAdd s.PC (.num 1))) (s.ram (jsAdd s.PC (.num 2))) s).2
          = JSVal.undefined) :
    tickExec op s =
      { (runHandler op (s.ram (jsAdd s.PC (.num 1))) (s.ram (jsAdd s.PC (.num 2))) s).1 with
        PC := jsAdd
          ((runHandler op (s.ram (jsAdd s.PC (.num 1))) (s.ram (jsAdd s.PC (.num 2))) s).1).PC
          (jsAdd (jsAnd (jsShr
            ((runHandler op (s.ram (jsAdd s.PC (.num 1))) (s.ram (jsAdd s.PC (.num 2))) s).1).IR
            (.num 6)) (.num 3)) (.num 1)) } := by
  unfold tickExec
  dsimp only
  rw [h]
  simp

theorem tickExec_jump (op : Op) (s : CPUState)
    (h : (runHandler op (s.ram (jsAdd s.PC (.num 1))) (s.ram (jsAdd s.PC (.num 2))) s).2
          ≠ JSVal.undefined) :
    tickExec op s =
      { (runHandler op (s.ram (jsAdd s.PC (.num 1))) (s.ram (jsAdd s.PC (.num 2))) s).1 with
        PC := (runHandler op (s.ram (jsAdd s.PC (.num 1))) (s.ram (jsAdd s.PC (.num 2))) s).2 } := by
  unfold tickExec
  dsimp only
  rw [if_pos h]

/-- RAM image driving the C6 witness: the byte at address 0 is 255, which
has no branch-table entry. -/
def ramUnknown : JSVal → JSVal := fun v =>
  if v = .num 0 then .num 255 else .num 0

/-- C6: when the fetched opcode byte has no branch-table entry, tick loads
the IR, reports the unrecognized opcode and stops the clock, leaving PC,
registers, RAM and output untouched, with no handler invoked and no later
tick firing: the condition is terminal. -/
theorem C6_unknown_opcode_halts (s : CPUState)
    (h : branchLookup (s.ram s.PC) = none) :
    tick s = { s with
      IR := s.ram s.PC,
      running := false,
      errlog := s.errlog ++ [Diag.unknownOpcode (s.ram s.PC)] } ∧
    (tick s).PC = s.PC ∧ (tick s).reg = s.reg ∧ (tick s).ram = s.ram ∧
    (tick s).output = s.output ∧ (tick s).running = false ∧
    (∀ n, run n (tick s) = tick s) := by
  have ht : tick s = { s with
      IR := s.ram s.PC,
      running := false,
      errlog := s.errlog ++ [Diag.unknownOpcode (s.ram s.PC)] } := by
    unfold tick
    dsimp only
    rw [h]
    rfl
  refine ⟨ht, by rw [ht], by rw [ht], by rw [ht], by rw [ht], by rw [ht], ?_⟩
  intro n
  exact run_halted n _ (by rw [ht])

/-- Witness for C6 at a concrete machine: opcode byte 255 at address 0. -/
theorem C6_unknown_opcode_halts_witness :
    (tick (initCPU ramUnknown)).running = false ∧
    (tick (initCPU ramUnknown)).PC = .num 0 ∧
    (tick (initCPU ramUnknown)).errlog = [Diag.unknownOpcode (.num 255)] ∧
    run 5 (tick (initCPU ramUnknown)) = tick (initCPU ramUnknown) := by
  have h := C6_unknown_opcode_halts (initCPU ramUnknown) (by decide)
  exact ⟨h.2.2.2.2.2.1, h.2.1, by rw [h.1]; with_unfolding_all decide, h.2.2.2.2.2.2 5⟩

/-- RAM image driving the C5 witness: DIV R0,R0 at address 0 with R0 = 0. -/
def ramDiv : JSVal → JSVal := fun v =>
  if v = .num 0 then .num 171 else .num 0

/-- C5: executing DIV or MOD while the divisor register holds 0 reports a
diagnostic carrying the faulting divisor and stops the clock, the same
stopClock mechanism the HLT handler uses, and the run loop never fires
another tick: the fault is fatal and the loop neither crashes nor spins. -/
theorem C5_div_mod_by_zero_fatal (s : CPUState) (op : Op)
    (hop : op = Op.DIV ∨ op = Op.MOD)
    (hfetch : branchLookup (s.ram s.PC) = some op)
    (hz : s.reg (s.ram (jsAdd s.PC (.num 2))) = .num 0) :
    (tick s).running = false ∧
    ((tick s).errlog = s.errlog ++ [Diag.dividerZero (.num 0)] ∨
     (tick s).errlog = s.errlog ++ [Diag.modZero (.num 0)]) ∧
    (∀ n, run n (tick s) = tick s) := by
  rcases hop with h | h <;> subst h
  · rw [tick_some s Op.DIV hfetch]
    rw [tickExec_default Op.DIV _ rfl]
    simp only [runHandler]
    rw [alu_div_zero (s.ram (jsAdd s.PC (.num 1))) (s.ram (jsAdd s.PC (.num 2)))
      { s with IR := s.ram s.PC } hz]
    exact ⟨rfl, Or.inl rfl, fun n => run_halted n _ rfl⟩
  · rw [tick_some s Op.MOD hfetch]
    rw [tickExec_default Op.MOD _ rfl]
    simp only [runHandler]
    rw [alu_mod_zero (s.ram (jsAdd s.PC (.num 1))) (s.ram (jsAdd s.PC (.num 2)))
      { s with IR := s.ram s.PC } hz]
    exact ⟨rfl, Or.inr rfl, fun n => run_halted n _ rfl⟩

/-- Witness for C5 at a concrete machine: DIV with divisor register 0. -/
theorem C5_div_mod_by_zero_fatal_witness :
    (tick (initCPU ramDiv)).running = false ∧
    run 5 (tick (initCPU ramDiv)) = tick (initCPU ramDiv) := by
  have h := C5_div_mod_by_zero_fatal (initCPU ramDiv) Op.DIV (Or.inl rfl)
    (by decide) (by with_unfolding_all decide)
  exact ⟨h.1, h.2.2 5⟩

theorem tickExec_FL (op : Op) (h : op ≠ Op.CMP) (s : CPUState) :
    (tickExec op s).FL = s.FL := by
  unfold tickExec
  dsimp only
  split_ifs <;> exact runHandler_FL op h _ _ s

/-- C10: on a zero divisor the DIV and MOD cases of the alu report and stop
the clock but do not return early: the assignment still executes, so the
destination register is overwritten (with the JavaScript result of dividing
by zero) and the machine state is mutated by the faulting operation. -/
theorem C10_divzero_still_assigns (s : CPUState) (ra rb : JSVal) (a : ℚ)
    (hA : s.reg ra = .num a) (hB : s.reg rb = .num 0) :
    ((alu ("DIV") ra rb s).reg ra =
        (if a = 0 then JSVal.nan else if 0 < a then JSVal.inf else JSVal.negInf) ∧
      (alu ("DIV") ra rb s).reg ra ≠ s.reg ra ∧
      (alu ("DIV") ra rb s).running = false) ∧
    ((alu ("MOD") ra rb s).reg ra = JSVal.nan ∧
      (alu ("MOD") ra rb s).reg ra ≠ s.reg ra ∧
      (alu ("MOD") ra rb s).running = false) := by
  have hd := alu_div_zero ra rb s hB
  have hm := alu_mod_zero ra rb s hB
  refine ⟨⟨?_, ?_, by rw [hd]⟩, ?_, ?_, by rw [hm]⟩
  · rw [hd]
    simp [updMap, hA, jsDiv]
  · rw [hd]
    simp only [updMap, hA, jsDiv]
    split_ifs <;> simp [hA]
  · rw [hm]
    simp [updMap, hA, jsMod]
  · rw [hm]
    simp only [updMap, hA, jsMod]
    split_ifs <;> simp [hA]

/-- Witness for C10: DIV and MOD by the zero in register 1 overwrite
register 0 (here 0 / 0 gives NaN) while the clock is stopped. -/
theorem C10_divzero_still_assigns_witness :
    (alu ("DIV") (.num 0) (.num 1) (initCPU ramDiv)).reg (.num 0) = JSVal.nan ∧
    (alu ("DIV") (.num 0) (.num 1) (initCPU ramDiv)).running = false ∧
    (alu ("MOD") (.num 0) (.num 1) (initCPU ramDiv)).reg (.num 0) = JSVal.nan ∧
    (alu ("MOD") (.num 0) (.num 1) (initCPU ramDiv)).running = false := by
  have h := C10_divzero_still_assigns (initCPU ramDiv) (.num 0) (.num 1) 0
    (by decide) (by decide)
  refine ⟨?_, h.1.2.2, h.2.1, h.2.2.2⟩
  rw [h.1.1]
  norm_num

/-- C2: comparing two number-valued registers ORs exactly one flag bit
into FL, the Equal bit 1 on equality, the Greater bit 2 when the first is
larger, the Less bit 4 when it is smaller, never clearing previously set
bits; and FL is untouched by every handler other than CMP and by every
tick whose opcode is not CMP, so flag bits persist until the next CMP. -/
theorem C2_cmp_sets_and_persists :
    (∀ (s : CPUState) (ra rb : JSVal) (a b : ℚ),
      s.reg ra = .num a → s.reg rb = .num b →
      (alu ("CMP") ra rb s).FL =
        (if a = b then jsOr s.FL (.num 1)
         else if b < a then jsOr s.FL (.num 2)
         else jsOr s.FL (.num 4))) ∧
    (∀ (op : Op), op ≠ Op.CMP → ∀ (x y : JSVal) (s : CPUState),
      ((runHandler op x y s).1).FL = s.FL) ∧
    (∀ (s : CPUState) (op : Op), branchLookup (s.ram s.PC) = some op →
      op ≠ Op.CMP → (tick s).FL = s.FL) := by
  refine ⟨?_, runHandler_FL, ?_⟩
  · intro s ra rb a b ha hb
    simp only [alu, ha, hb, jsEq, jsGt, jsLt, decide_eq_true_eq]
    split_ifs <;> first
      | rfl
      | linarith
      | exact absurd (le_antisymm (not_lt.1 (by assumption)) (not_lt.1 (by assumption)))
          (by assumption)
  · intro s op hbl hne
    rw [tick_some s op hbl]
    exact tickExec_FL op hne { s with IR := s.ram s.PC }

/-- Witness for C2: a CMP of two equal registers on the fresh machine sets
FL to 1, and a later non-CMP tick (the DIV at address 0 of ramDiv) leaves
FL untouched. -/
theorem C2_cmp_sets_and_persists_witness :
    (alu ("CMP") (.num 0) (.num 1) (initCPU ramDiv)).FL = .num 1 ∧
    (tick (initCPU ramDiv)).FL = (initCPU ramDiv).FL := by
  have h := C2_cmp_sets_and_persists
  constructor
  · have h1 := h.1 (initCPU ramDiv) (.num 0) (.num 1) 0 0 (by decide) (by decide)
    rw [h1]
    norm_num
    decide
  · exact h.2.2 (initCPU ramDiv) Op.DIV (by decide) (by decide)

/-- A machine state with FL = 3, the value CMP accumulates once a
greater-than comparison (bit 1) is followed by an equal comparison
(bit 0), and register 0 holding the jump target 10. -/
def stateFL3 : CPUState :=
  { ram := fun _ => .num 0,
    reg := fun v => if v = .num 0 then .num 10 else .undefined,
    PC := .num 0, IR := .num 0, FL := .num 3,
    running := true, output := [], errlog := [] }

/-- Claim C3 read literally over the embedding: JEQ returns the register
value as next PC exactly when bit 0 of FL is set, JNE exactly when bit 0
is clear, regardless of the other flag bits. -/
def C3Statement : Prop :=
  ∀ (s : CPUState) (r ob : JSVal),
    ((runHandler Op.JEQ r ob s).2 =
      (if Nat.testBit (toUint32 s.FL) 0 then s.reg r else JSVal.undefined)) ∧
    ((runHandler Op.JNE r ob s).2 =
      (if Nat.testBit (toUint32 s.FL) 0 then JSVal.undefined else s.reg r))

/-- C3 counterexample: with FL = 3 the Equal bit is set, yet JEQ compares
the whole FL against the number 1 and falls through. -/
theorem C3_counterexample : ¬ C3Statement := by
  intro h
  have hc := (h stateFL3 (.num 0) .undefined).1
  have hn : ¬ ((runHandler Op.JEQ (.num 0) .undefined stateFL3).2 =
      (if Nat.testBit (toUint32 stateFL3.FL) 0 then stateFL3.reg (.num 0)
       else JSVal.undefined)) := by decide
  exact hn hc

/-- C3 (amended): JEQ returns the register value as next PC exactly when
FL is strictly equal to the number 1, JNE exactly when FL is strictly
equal to the number 0; in every other case, Greater or Less bits included,
the handler returns undefined and the default advance applies.  Neither
handler changes the state. -/
theorem C3_jeq_jne_whole_FL (s : CPUState) (r ob : JSVal) :
    (runHandler Op.JEQ r ob s).2 =
      (if jsEq s.FL (.num 1) then s.reg r else JSVal.undefined) ∧
    (runHandler Op.JNE r ob s).2 =
      (if jsEq s.FL (.num 0) then s.reg r else JSVal.undefined) ∧
    (runHandler Op.JEQ r ob s).1 = s ∧ (runHandler Op.JNE r ob s).1 = s := by
  simp only [runHandler]
  split_ifs <;> simp

/-- A machine whose registers 0 and 1 both hold 200, an in-range pair
whose sum leaves the 8-bit range. -/
def state200 : CPUState :=
  { ram := fun _ => .num 0,
    reg := fun v => if v = .num 0 ∨ v = .num 1 then .num 200 else .num 0,
    PC := .num 0, IR := .num 0, FL := .undefined,
    running := true, output := [], errlog := [] }

/-- C4 counterexample: ADD on the in-range registers 200 and 200 stores
the untruncated sum 400, so the stored value is no 0-255 byte and the
claimed invariant fails after this ALU operation. -/
theorem C4_counterexample :
    (alu ("ADD") (.num 0) (.num 1) state200).reg (.num 0) = .num 400 ∧
    ¬ (∃ q : ℚ, 0 ≤ q ∧ q ≤ 255 ∧
        (alu ("ADD") (.num 0) (.num 1) state200).reg (.num 0) = .num q) := by
  have h400 : (alu ("ADD") (.num 0) (.num 1) state200).reg (.num 0) = .num 400 := by
    with_unfolding_all decide
  refine ⟨h400, ?_⟩
  rintro ⟨q, h0, h255, heq⟩
  rw [h400] at heq
  cases heq
  norm_num at h255

/-- C4 (amended): INC masks with 0xff, so on a byte-valued register it
wraps modulo 256 and its result stays within 0-255; but ADD stores the
plain untruncated sum of the two register values and DEC the plain
difference, so the 0-255 invariant does not hold after every ALU
operation. -/
theorem C4_inc_wraps_add_does_not :
    (∀ (s : CPUState) (r : JSVal) (n : ℕ), n ≤ 255 → s.reg r = .num n →
      (alu ("INC") r .undefined s).reg r = .num (((n + 1) % 256 : ℕ) : ℚ) ∧
      ((n + 1) % 256 : ℕ) ≤ 255) ∧
    (∀ (s : CPUState) (ra rb : JSVal) (x y : ℚ),
      s.reg ra = .num x → s.reg rb = .num y →
      (alu ("ADD") ra rb s).reg ra = .num (x + y)) ∧
    (∀ (s : CPUState) (r : JSVal) (x : ℚ), s.reg r = .num x →
      (alu ("DEC") r .undefined s).reg r = .num (x - 1)) := by
  refine ⟨?_, ?_, ?_⟩
  · intro s r n hn hr
    constructor
    · have hcast : jsAdd (s.reg r) (.num 1) = .num (((n + 1 : ℕ) : ℕ) : ℚ) := by
        rw [hr]
        show JSVal.num ((n : ℚ) + 1) = _
        congr 1
        push_cast
        ring
      simp only [alu, updMap]
      rw [hcast, jsAnd255 (n + 1) (by omega), land255_mod (n + 1) (by omega)]
      simp
    · omega
  · intro s ra rb x y hx hy
    simp [alu, updMap, hx, hy, jsAdd]
  · intro s r x hx
    simp [alu, updMap, hx, jsSub]

/-- Witness for the amended C4: on state200, INC of register 0 gives 201
and ADD of registers 0 and 1 gives the out-of-range 400. -/
theorem C4_inc_wraps_add_does_not_witness :
    (alu ("INC") (.num 0) .undefined state200).reg (.num 0) = .num 201 ∧
    (alu ("ADD") (.num 0) (.num 1) state200).reg (.num 0) = .num 400 := by
  have h := C4_inc_wraps_add_does_not
  have h1 := (h.1 state200 (.num 0) 200 (by norm_num)
    (by with_unfolding_all decide)).1
  have h2 := h.2.1 state200 (.num 0) (.num 1) 200 200
    (by with_unfolding_all decide) (by with_unfolding_all decide)
  constructor
  · rw [h1]; norm_num
  · rw [h2]; norm_num

/-- C7: PUSH r then POP r is the identity on register r and restores SP.
The push reads the register, decrements SP by one (to p - 1, a plain
subtraction) and writes the value to RAM at the new SP; the pop reads that
same RAM cell back, increments SP with the masked INC (which returns the
byte p for p in 0..255) and stores the read value in r.  SP here is the
spec-modelled stack-pointer slot, register 7. -/
theorem C7_push_pop_roundtrip (s : CPUState) (r : JSVal) (p : ℕ)
    (hp : p ≤ 255) (hsp : s.reg (.num SP) = .num ((p : ℕ) : ℚ)) :
    ((runHandler Op.POP r .undefined ((runHandler Op.PUSH r .undefined s).1)).1).reg r
      = s.reg r ∧
    ((runHandler Op.POP r .undefined ((runHandler Op.PUSH r .undefined s).1)).1).reg (.num SP)
      = s.reg (.num SP) := by
  have hup : jsAnd (jsAdd (jsSub (JSVal.num ((p : ℕ) : ℚ)) (.num 1)) (.num 1)) (.num 255)
      = .num ((p : ℕ) : ℚ) := by
    have h2 : jsAdd (jsSub (JSVal.num ((p : ℕ) : ℚ)) (.num 1)) (.num 1)
        = .num ((p : ℕ) : ℚ) := by
      show JSVal.num ((p : ℚ) - 1 + 1) = _
      congr 1
      ring
    rw [h2]
    have h3 := jsAnd255 p (by omega)
    rw [land255_mod p (by omega), Nat.mod_eq_of_lt (by omega)] at h3
    exact h3
  constructor
  · simp only [runHandler, _push, _pop, alu, updMap, hsp]
    simp
  · simp only [runHandler, _push, _pop, alu, updMap, hsp]
    simp
    by_cases hr : JSVal.num SP = r
    · rw [if_pos hr, ← hr, hsp]
    · rw [if_neg hr, hup]

/-- Witness for C7 on the fresh machine: SP starts at 0xF4 = 244 and
register 0 at 0; PUSH 0 then POP 0 leaves both as they were. -/
theorem C7_push_pop_roundtrip_witness :
    ((runHandler Op.POP (.num 0) .undefined
        ((runHandler Op.PUSH (.num 0) .undefined (initCPU ramDiv)).1)).1).reg (.num 0)
      = (initCPU ramDiv).reg (.num 0) ∧
    ((runHandler Op.POP (.num 0) .undefined
        ((runHandler Op.PUSH (.num 0) .undefined (initCPU ramDiv)).1)).1).reg (.num SP)
      = (initCPU ramDiv).reg (.num SP) := by
  exact C7_push_pop_roundtrip (initCPU ramDiv) (.num 0) 244 (by norm_num)
    (by with_unfolding_all decide)

/-- C8 counterexample: the constructor assigns PC and IR but never FL, so
on a freshly constructed machine FL holds the undefined value, not 0. -/
theorem C8_counterexample : (initCPU (fun _ => JSVal.num 0)).FL ≠ .num 0 := by
  decide

/-- C8 (amended): on construction registers 0-6 hold 0, the spec-modelled
SP slot (register 7) holds 0xF4, PC and IR hold 0, and FL is left
undefined: the constructor never writes reg.FL. -/
theorem C8_initial_state (ram : JSVal → JSVal) :
    (∀ k : ℕ, k < 8 → k ≠ 7 → (initCPU ram).reg (.num k) = .num 0) ∧
    (initCPU ram).reg (.num SP) = .num 244 ∧
    (initCPU ram).PC = .num 0 ∧ (initCPU ram).IR = .num 0 ∧
    (initCPU ram).FL = .undefined := by
  refine ⟨?_, by simp [initCPU, initReg], rfl, rfl, rfl⟩
  intro k hk h7
  interval_cases k <;> first
    | exact absurd rfl h7
    | norm_num [initCPU, initReg, SP, JSVal.num.injEq]

/-- Witness for the amended C8 on a concrete RAM: register 0 is 0 and the
SP slot is 244. -/
theorem C8_initial_state_witness :
    (initCPU (fun _ => JSVal.num 0)).reg (.num 0) = .num 0 ∧
    (initCPU (fun _ => JSVal.num 0)).reg (.num SP) = .num 244 := by
  have h := C8_initial_state (fun _ => JSVal.num 0)
  refine ⟨?_, h.2.1⟩
  have h0 := h.1 0 (by norm_num) (by norm_num)
  simpa using h0

/-- The RAM image of the C9 program: LDI R0,8; LDI R1,9; MUL R0,R1;
PRN R0; HLT, one byte per address from 0, zero elsewhere. -/
def ram9 : JSVal → JSVal := fun v =>
  if v = .num 0 then .num 153 else if v = .num 1 then .num 0
  else if v = .num 2 then .num 8 else if v = .num 3 then .num 153
  else if v = .num 4 then .num 1 else if v = .num 5 then .num 9
  else if v = .num 6 then .num 170 else if v = .num 7 then .num 0
  else if v = .num 8 then .num 1 else if v = .num 9 then .num 67
  else if v = .num 10 then .num 0 else if v = .num 11 then .num 1
  else .num 0

/-- C9: running the loaded multiply program prints exactly one value, 72,
then halts with an empty diagnostic log. -/
theorem C9_mul_program_prints_72 :
    (run 20 (initCPU ram9)).output = [.num 72] ∧
    (run 20 (initCPU ram9)).running = false ∧
    (run 20 (initCPU ram9)).errlog = [] := by
  with_unfolding_all decide

theorem advance_eval (op : Op) :
    jsAdd (jsAnd (jsShr (.num ((opByte op : ℕ) : ℚ)) (.num 6)) (.num 3)) (.num 1)
      = .num ((((opByte op >>> 6) &&& 3) + 1 : ℕ) : ℚ) := by
  cases op <;> with_unfolding_all decide

/-- C1: on a tick whose fetched opcode has a branch-table handler, if the
handler returns a value other than undefined, PC is set to exactly that
value; otherwise PC becomes PC + (((IR >> 6) & 0b11) + 1), so an opcode
with two encoded operand bytes advances a numeric PC by 3, one operand by
2, none by 1. -/
theorem C1_pc_update (s : CPUState) (op : Op)
    (h : branchLookup (s.ram s.PC) = some op) :
    ((runHandler op (s.ram (jsAdd s.PC (.num 1))) (s.ram (jsAdd s.PC (.num 2)))
        { s with IR := s.ram s.PC }).2 ≠ JSVal.undefined →
      (tick s).PC = (runHandler op (s.ram (jsAdd s.PC (.num 1)))
        (s.ram (jsAdd s.PC (.num 2))) { s with IR := s.ram s.PC }).2) ∧
    ((runHandler op (s.ram (jsAdd s.PC (.num 1))) (s.ram (jsAdd s.PC (.num 2)))
        { s with IR := s.ram s.PC }).2 = JSVal.undefined →
      (tick s).PC = jsAdd s.PC (.num ((((opByte op >>> 6) &&& 3) + 1 : ℕ) : ℚ)) ∧
      ∀ q : ℚ, s.PC = .num q →
        (tick s).PC = .num (q + (((opByte op >>> 6) &&& 3) + 1 : ℕ))) := by
  have hir : s.ram s.PC = .num ((opByte op : ℕ) : ℚ) := branchLookup_some h
  constructor
  · intro hne
    rw [tick_some s op h, tickExec_jump op { s with IR := s.ram s.PC } hne]
  · intro hud
    have hadv : (tick s).PC
        = jsAdd s.PC (.num ((((opByte op >>> 6) &&& 3) + 1 : ℕ) : ℚ)) := by
      rw [tick_some s op h, tickExec_default op { s with IR := s.ram s.PC } hud]
      have h1 : ((runHandler op (s.ram (jsAdd s.PC (.num 1)))
          (s.ram (jsAdd s.PC (.num 2))) { s with IR := s.ram s.PC }).1).PC = s.PC :=
        runHandler_PC op _ _ _
      have h2 : ((runHandler op (s.ram (jsAdd s.PC (.num 1)))
          (s.ram (jsAdd s.PC (.num 2))) { s with IR := s.ram s.PC }).1).IR
            = s.ram s.PC :=
        runHandler_IR op _ _ _
      show jsAdd _ (jsAdd (jsAnd (jsShr _ (.num 6)) (.num 3)) (.num 1)) = _
      rw [h1, h2, hir, advance_eval]
    refine ⟨hadv, fun q hq => ?_⟩
    rw [hadv, hq]
    rfl

/-- Witness for C1: the first tick of the multiply program executes LDI, a
two-operand opcode whose handler returns undefined, so PC moves 0 to 3. -/
theorem C1_pc_update_witness : (tick (initCPU ram9)).PC = .num 3 := by
  have h := C1_pc_update (initCPU ram9) Op.LDI (by decide)
  have h2 := (h.2 (by with_unfolding_all decide)).2 0 rfl
  rw [h2]
  with_unfolding_all decide

end LS8
